import Mathlib

/-!
Verification of the FHECorporateGovernance repository.

The core on-chain contract (CorporateGovernance.sol) is not shipped in this
repository; its data structures and operations are documented in
ARCHITECTURE.md (the Resolution and BoardMember structs, function
requirements), IMPLEMENTATION_SUMMARY.md (closeResolution, resolveResolution
and handleDecryptionTimeout snippets), the README and the testing guide
(expected revert messages). The governance state machine below is a shallow
embedding built from those in-repository sources, completed from the
specification where the repository gives only prose. The encrypted euint32
accumulators are modelled by their cleartext denotation (the weighted tally
they homomorphically hold); the oracle Gateway is an external caller identity.

The TypeScript SDK (FhevmClient, encryptInput, encryptMultiple, decryptValue)
is present in the repository and is embedded directly from its source.
-/

namespace Governance

/-- BoardMember struct, from ARCHITECTURE.md lines 204-211. -/
structure BoardMember where
  isActive : Bool
  votingPower : Nat
  name : String
  position : String
  deriving DecidableEq, Repr

/-- Resolution struct, from ARCHITECTURE.md lines 182-199.  The encrypted
accumulators yesVotes/noVotes (euint32) are modelled by the cleartext weighted
tally they hold.  Note the struct has no failure flag field. -/
structure Resolution where
  id : Nat
  title : String
  description : String
  startTime : Nat
  endTime : Nat
  active : Bool
  yesVotes : Nat
  noVotes : Nat
  creator : Nat
  requiredQuorum : Nat
  decryptionRequested : Bool
  decryptionRequestTime : Nat
  decryptionRequestId : Nat
  resolved : Bool
  revealedYesVotes : Nat
  revealedNoVotes : Nat
  deriving DecidableEq, Repr

/-- Events emitted by the contract (ARCHITECTURE.md, audit-trail section). -/
inductive GovEvent where
  | boardMemberAdded (addr : Nat)
  | boardMemberRemoved (addr : Nat)
  | resolutionCreated (rid : Nat)
  | voteCastEvt (rid member : Nat)
  | decryptionRequestedEvt (rid reqId : Nat)
  | decryptionTimeoutEvt (rid : Nat)
  | resolutionResolvedEvt (rid yes no : Nat)
  deriving DecidableEq, Repr

/-- Contract-wide storage: chairperson and gateway identities, the member
registry with its maintained running sum totalVotingPower, the resolution
array, the requestId to resolutionId correlation mapping, the per-member
has-voted record and the emitted event log.  Addresses are opaque numeric
identities (0 is the zero address). -/
structure GovState where
  chairperson : Nat
  gateway : Nat
  members : List (Nat × BoardMember)
  totalVotingPower : Nat
  resolutions : List Resolution
  pendingRequests : List (Nat × Nat)
  nextRequestId : Nat
  voted : List (Nat × Nat)
  events : List GovEvent
  deriving DecidableEq, Repr

/-- Error taxonomy from the specification's error handling design:
validation, authorization, wrong lifecycle state, not found.  The message is
the revert string documented in the README error handling guide. -/
inductive GovError where
  | validationError (msg : String)
  | authorizationError (msg : String)
  | stateError (msg : String)
  | notFoundError (msg : String)
  deriving DecidableEq, Repr

/-- validString modifier: string length 1..1000 (IMPLEMENTATION_SUMMARY.md). -/
def validString (str : String) : Bool :=
  0 < str.length && str.length ≤ 1000

/-- DECRYPTION_TIMEOUT = 1 days (IMPLEMENTATION_SUMMARY.md). -/
def DECRYPTION_TIMEOUT : Nat := 24 * 60 * 60

/-- Voting window duration: 7 days by default (simulation script step 5). -/
def VOTING_DURATION : Nat := 7 * 24 * 60 * 60

/-- First-match lookup in the member registry (Solidity mapping read). -/
def lookupMember : List (Nat × BoardMember) → Nat → Option BoardMember
  | [], _ => none
  | (k, m) :: rest, a => if k = a then some m else lookupMember rest a

/-- Update the first entry with the given key (Solidity mapping write; keys
are unique in a mapping, so only the first occurrence is meaningful). -/
def updateFirst (a : Nat) (f : BoardMember → BoardMember) :
    List (Nat × BoardMember) → List (Nat × BoardMember)
  | [] => []
  | (k, m) :: rest =>
      if k = a then (k, f m) :: rest else (k, m) :: updateFirst a f rest

/-- Sum of the voting powers of the active members. -/
def activePower : List (Nat × BoardMember) → Nat
  | [] => 0
  | (_, m) :: rest => (if m.isActive then m.votingPower else 0) + activePower rest

/-- Resolution lookup by sequential identifier (array indexing). -/
def getResolution (s : GovState) (rid : Nat) : Option Resolution :=
  s.resolutions[rid]?

/-- getTotalVotingPower view function: O(1) read of the running sum
(ARCHITECTURE.md line 284).  A pure read with no side effect. -/
def getTotalVotingPower (s : GovState) : Nat :=
  s.totalVotingPower

/-- Request lookup in the resolutionIdByRequestId mapping. -/
def pendingLookup : List (Nat × Nat) → Nat → Option Nat
  | [], _ => none
  | (k, v) :: rest, reqId => if k = reqId then some v else pendingLookup rest reqId

/-- Invalidate a PendingRequest entry (delete on a Solidity mapping key). -/
def pendingErase (l : List (Nat × Nat)) (reqId : Nat) : List (Nat × Nat) :=
  l.filter (fun p => p.1 ≠ reqId)

/-- addBoardMember, chairperson-only (testing guide: revert strings for
non-owner, duplicate member; README: address and voting power validation;
weight range 1..1000 from ARCHITECTURE.md).  A previously deactivated member
is reactivated with the new power. -/
def addBoardMember (s : GovState) (caller addr : Nat)
    (name position : String) (power : Nat) : Except GovError GovState :=
  if caller ≠ s.chairperson then
    .error (.authorizationError "Ownable: caller is not the owner")
  else if addr = 0 then
    .error (.validationError "Invalid member address")
  else if power = 0 || 1000 < power then
    .error (.validationError "Voting power out of range")
  else if !(validString name && validString position) then
    .error (.validationError "Invalid string length")
  else
    match lookupMember s.members addr with
    | some m =>
        if m.isActive then
          .error (.validationError "Address is already a board member")
        else
          .ok { s with
            members := updateFirst addr
              (fun _ => ⟨true, power, name, position⟩) s.members,
            totalVotingPower := s.totalVotingPower + power,
            events := .boardMemberAdded addr :: s.events }
    | none =>
        .ok { s with
          members := (addr, ⟨true, power, name, position⟩) :: s.members,
          totalVotingPower := s.totalVotingPower + power,
          events := .boardMemberAdded addr :: s.events }

/-- removeBoardMember, chairperson-only: members are deactivated, never
hard-deleted, and their weight leaves the running sum. -/
def removeBoardMember (s : GovState) (caller addr : Nat) :
    Except GovError GovState :=
  if caller ≠ s.chairperson then
    .error (.authorizationError "Ownable: caller is not the owner")
  else
    match lookupMember s.members addr with
    | none => .error (.notFoundError "Not a board member")
    | some m =>
        if !m.isActive then
          .error (.notFoundError "Not a board member")
        else
          .ok { s with
            members := updateFirst addr (fun mm => { mm with isActive := false }) s.members,
            totalVotingPower := s.totalVotingPower - m.votingPower,
            events := .boardMemberRemoved addr :: s.events }

/-- Modelled from the spec: implicit self-registration on first action
("Caller is auto-added as board member if not already", ARCHITECTURE.md;
the default minimal weight of the specification is 1). -/
def ensureRegistered (s : GovState) (a : Nat) : GovState :=
  match lookupMember s.members a with
  | some _ => s
  | none =>
      { s with
        members := (a, ⟨true, 1, "Member", "Board Member"⟩) :: s.members,
        totalVotingPower := s.totalVotingPower + 1,
        events := .boardMemberAdded a :: s.events }

/-- createResolution (ARCHITECTURE.md lines 217-230): validates the strings,
auto-registers the caller, requires quorum > 0 and quorum bounded by the
total voting power; appends a new Active resolution with a sequential id. -/
def createResolution (s : GovState) (caller : Nat)
    (title description : String) (quorum now : Nat) : Except GovError GovState :=
  if !(validString title && validString description) then
    .error (.validationError "Invalid string length")
  else
    let s1 := ensureRegistered s caller
    match lookupMember s1.members caller with
    | none => .error (.authorizationError "Only active board members")
    | some m =>
        if !m.isActive then
          .error (.authorizationError "Only active board members")
        else if quorum = 0 then
          .error (.validationError "Quorum must be greater than 0")
        else if s1.totalVotingPower < quorum then
          .error (.validationError "Quorum cannot exceed total voting power")
        else
          .ok { s1 with
            resolutions := s1.resolutions ++
              [{ id := s1.resolutions.length, title := title,
                 description := description, startTime := now,
                 endTime := now + VOTING_DURATION, active := true,
                 yesVotes := 0, noVotes := 0, creator := caller,
                 requiredQuorum := quorum, decryptionRequested := false,
                 decryptionRequestTime := 0, decryptionRequestId := 0,
                 resolved := false, revealedYesVotes := 0,
                 revealedNoVotes := 0 }],
            events := .resolutionCreated s1.resolutions.length :: s1.events }

/-- castVote (ARCHITECTURE.md lines 232-245; revert strings from the README
error handling guide; the single-vote check from the testing guide, which
requires a second vote by the same member to revert with "Member has already
voted on this resolution").  The encrypted choice is modelled by its boolean
denotation; the weighted contribution enters the matching accumulator. -/
def castVote (s : GovState) (caller rid : Nat) (choice : Bool) (now : Nat) :
    Except GovError GovState :=
  match getResolution s rid with
  | none => .error (.notFoundError "Resolution does not exist")
  | some r =>
      if !r.active then
        .error (.stateError "Resolution is not active")
      else if r.endTime ≤ now then
        .error (.stateError "Voting period has ended")
      else
        let s1 := ensureRegistered s caller
        match lookupMember s1.members caller with
        | none => .error (.authorizationError "Only active board members")
        | some m =>
            if !m.isActive then
              .error (.authorizationError "Only active board members")
            else if (rid, caller) ∈ s1.voted then
              .error (.stateError "Member has already voted on this resolution")
            else
              .ok { s1 with
                resolutions := s1.resolutions.set rid
                  (if choice then { r with yesVotes := r.yesVotes + m.votingPower }
                   else { r with noVotes := r.noVotes + m.votingPower }),
                voted := (rid, caller) :: s1.voted,
                events := .voteCastEvt rid caller :: s1.events }

/-- closeResolution (IMPLEMENTATION_SUMMARY.md lines 171-181, requirements
from ARCHITECTURE.md lines 247-258): allowed only while no decryption has
been requested and the resolution is unresolved, by anyone once the voting
period ended or by the creator at any time; records the request time,
registers the PendingRequest entry and issues a fresh requestId. -/
def closeResolution (s : GovState) (caller rid now : Nat) :
    Except GovError GovState :=
  match getResolution s rid with
  | none => .error (.notFoundError "Resolution does not exist")
  | some r =>
      if r.decryptionRequested || r.resolved then
        .error (.stateError "Decryption already requested")
      else if now < r.endTime && caller ≠ r.creator then
        .error (.authorizationError "Voting period not ended and caller is not creator")
      else
        .ok { s with
          resolutions := s.resolutions.set rid
            { r with
              active := false
              decryptionRequested := true
              decryptionRequestTime := now
              decryptionRequestId := s.nextRequestId },
          pendingRequests := (s.nextRequestId, rid) :: s.pendingRequests,
          nextRequestId := s.nextRequestId + 1,
          events := .decryptionRequestedEvt rid s.nextRequestId :: s.events }

/-- resolveResolution, the Gateway callback (IMPLEMENTATION_SUMMARY.md lines
184-191; onlyGateway modifier; lookup through resolutionIdByRequestId).
Modelled from the spec where the snippet is silent: an absent or already
consumed requestId fails with a not-found error, a resolved resolution with a
state error, and a successful delivery invalidates the PendingRequest entry. -/
def resolveResolution (s : GovState) (caller reqId yes no : Nat) :
    Except GovError GovState :=
  if caller ≠ s.gateway then
    .error (.authorizationError "Only gateway can call this function")
  else
    match pendingLookup s.pendingRequests reqId with
    | none => .error (.notFoundError "Unknown request")
    | some rid =>
        match getResolution s rid with
        | none => .error (.notFoundError "Resolution does not exist")
        | some r =>
            if r.resolved then
              .error (.stateError "Resolution already resolved")
            else
              .ok { s with
                resolutions := s.resolutions.set rid
                  { r with
                    active := false
                    resolved := true
                    revealedYesVotes := yes
                    revealedNoVotes := no },
                pendingRequests := pendingErase s.pendingRequests reqId,
                events := .resolutionResolvedEvt rid yes no :: s.events }

/-- handleDecryptionTimeout (IMPLEMENTATION_SUMMARY.md lines 199-213,
requirements from ARCHITECTURE.md lines 260-271): requires an outstanding
unresolved decryption request, the one-day timeout elapsed ("Timeout period
not reached" otherwise), and the caller to be the creator or the chairperson;
zeroes the revealed tallies, resolves the resolution, invalidates the
PendingRequest entry and emits DecryptionTimeout. -/
def handleDecryptionTimeout (s : GovState) (caller rid now : Nat) :
    Except GovError GovState :=
  match getResolution s rid with
  | none => .error (.notFoundError "Resolution does not exist")
  | some r =>
      if !r.decryptionRequested then
        .error (.stateError "Decryption not requested")
      else if r.resolved then
        .error (.stateError "Resolution already resolved")
      else if now < r.decryptionRequestTime + DECRYPTION_TIMEOUT then
        .error (.stateError "Timeout period not reached")
      else if caller ≠ r.creator ∧ caller ≠ s.chairperson then
        .error (.authorizationError "Only creator or chairperson")
      else
        .ok { s with
          resolutions := s.resolutions.set rid
            { r with
              active := false
              resolved := true
              revealedYesVotes := 0
              revealedNoVotes := 0 },
          pendingRequests := pendingErase s.pendingRequests r.decryptionRequestId,
          events := .decryptionTimeoutEvt rid :: s.events }

/-- Modelled from the spec: the failed-reveal mark.  The Resolution struct in
the repository has no failure flag field; the only failure record is the
DecryptionTimeout event emitted by handleDecryptionTimeout. -/
def failedReveal (s : GovState) (rid : Nat) : Bool :=
  decide (GovEvent.decryptionTimeoutEvt rid ∈ s.events)

/-- Modelled from the spec: the outcome policy.  "passed" iff resolved, not a
failed reveal, revealed yes strictly above revealed no, and the revealed
participation meets the required quorum.  No in-repository code computes this
value (the simulation script only prints a yes-above-no comparison for
illustrative hardcoded tallies). -/
def passed (r : Resolution) (failed : Bool) : Bool :=
  r.resolved && !failed
    && decide (r.revealedNoVotes < r.revealedYesVotes)
    && decide (r.requiredQuorum ≤ r.revealedYesVotes + r.revealedNoVotes)

/-- Membership half of the running-sum invariant: every active member has a
positive voting power. -/
def activeWeightsPos (l : List (Nat × BoardMember)) : Prop :=
  ∀ p ∈ l, p.2.isActive = true → 0 < p.2.votingPower

/-- The voting-power invariant: the maintained running sum equals the sum of
the active members' weights, and active weights are positive. -/
def govInv (s : GovState) : Prop :=
  s.totalVotingPower = activePower s.members ∧ activeWeightsPos s.members

instance (l : List (Nat × BoardMember)) : Decidable (activeWeightsPos l) := by
  unfold activeWeightsPos
  infer_instance

instance (s : GovState) : Decidable (govInv s) := by
  unfold govInv
  infer_instance

end Governance

namespace Sdk

/-!
Embedding of the TypeScript SDK sources present in the repository:
fhevm-sdk/src/encryption.ts and the FhevmClient class (client.ts).
The external fhevmjs capability is abstracted: an encrypted input builder is
its recorded sequence of add operations, and the encryption of a finished
builder is an arbitrary function supplied by the instance.
-/

/-- The seven supported encryption type literals (encryption.ts line 26). -/
inductive FheType where
  | uint8
  | uint16
  | uint32
  | uint64
  | uint128
  | bool
  | address
  deriving DecidableEq, Repr

/-- A JavaScript value passed for encryption:
number, bigint, boolean or string. -/
inductive JsValue where
  | num (n : Int)
  | big (n : Int)
  | boolean (b : Bool)
  | str (s : String)
  deriving DecidableEq, Repr

/-- The JavaScript Number(value) conversion as invoked by the SDK, abstracting
the builtin (string parsing is not exercised by the claims; both SDK
functions call the identical builtin). -/
def jsNumber : JsValue → Int
  | .num n => n
  | .big n => n
  | .boolean b => if b then 1 else 0
  | .str _ => 0

/-- The JavaScript BigInt(value) conversion as invoked by the SDK. -/
def jsBigInt : JsValue → Int
  | .num n => n
  | .big n => n
  | .boolean b => if b then 1 else 0
  | .str _ => 0

/-- The JavaScript Boolean(value) conversion as invoked by the SDK. -/
def jsBoolean : JsValue → Bool
  | .num n => decide (n ≠ 0)
  | .big n => decide (n ≠ 0)
  | .boolean b => b
  | .str s => decide (s ≠ "")

/-- The JavaScript String(value) conversion as invoked by the SDK. -/
def jsString : JsValue → String
  | .num n => toString n
  | .big n => toString n
  | .boolean b => toString b
  | .str s => s

/-- An add operation recorded on an encrypted input builder, carrying the
converted value handed to the fhevmjs builder method. -/
inductive AddOp where
  | add8 (v : Int)
  | add16 (v : Int)
  | add32 (v : Int)
  | add64 (v : Int)
  | add128 (v : Int)
  | addBool (v : Bool)
  | addAddress (v : String)
  deriving DecidableEq, Repr

/-- Builder state produced by
instance.createEncryptedInput(contractAddress, userAddress): the two
addresses and the sequence of add operations performed so far. -/
structure Builder where
  contractAddress : String
  userAddress : String
  ops : List AddOp
  deriving DecidableEq, Repr

/-- Record one more add operation on the builder. -/
def Builder.push (b : Builder) (op : AddOp) : Builder :=
  { b with ops := b.ops ++ [op] }

/-- The FHEVM instance as consumed by the encryption helpers: the builder
factory and the encryption of a finished builder.  The encryption output
type and function are arbitrary (external fhevmjs capability); the output is
determined by the builder handed to encrypt. -/
structure FhevmInstanceModel (α : Type) where
  createEncryptedInput : String → String → Builder
  encryptFun : Builder → α

/-- encryptInput (encryption.ts lines 21-57): builds an encrypted input for a
single value, dispatching on the type literal exactly as the source switch
does, then encrypts. -/
def encryptInput {α : Type} (inst : FhevmInstanceModel α)
    (contractAddress userAddress : String) (value : JsValue) (ty : FheType) : α :=
  let input := inst.createEncryptedInput contractAddress userAddress
  let input2 :=
    match ty with
    | .uint8 => input.push (.add8 (jsNumber value))
    | .uint16 => input.push (.add16 (jsNumber value))
    | .uint32 => input.push (.add32 (jsNumber value))
    | .uint64 => input.push (.add64 (jsBigInt value))
    | .uint128 => input.push (.add128 (jsBigInt value))
    | .bool => input.push (.addBool (jsBoolean value))
    | .address => input.push (.addAddress (jsString value))
  inst.encryptFun input2

/-- encryptMultiple (encryption.ts lines 85-123): builds one encrypted input
for a list of value and type pairs, running the same switch per element, then
encrypts once. -/
def encryptMultiple {α : Type} (inst : FhevmInstanceModel α)
    (contractAddress userAddress : String)
    (values : List (JsValue × FheType)) : α :=
  let input := inst.createEncryptedInput contractAddress userAddress
  let final := values.foldl
    (fun acc vt =>
      match vt.2 with
      | .uint8 => acc.push (.add8 (jsNumber vt.1))
      | .uint16 => acc.push (.add16 (jsNumber vt.1))
      | .uint32 => acc.push (.add32 (jsNumber vt.1))
      | .uint64 => acc.push (.add64 (jsBigInt vt.1))
      | .uint128 => acc.push (.add128 (jsBigInt vt.1))
      | .bool => acc.push (.addBool (jsBoolean vt.1))
      | .address => acc.push (.addAddress (jsString vt.1))) input
  inst.encryptFun final

/-- Which instance method decryptValue delegates to. -/
inductive DecryptCall where
  | publicDecrypt (handle : String)
  | userDecrypt (handle : String) (contractAddress : String)
  deriving DecidableEq, Repr

/-- DecryptOptions (types.ts): an absent field is none; isPublic defaults to
false when absent (TS destructuring default). -/
structure DecryptOptions where
  contractAddress : String
  isPublic : Option Bool
  signer : Option String
  deriving DecidableEq, Repr

/-- decryptValue (encryption.ts lines 62-80): public decryption needs no
signature; user decryption requires a signer and delegates to
instance.userDecrypt with the handle and contract address. -/
def decryptValue (handle : String) (options : DecryptOptions) :
    Except String DecryptCall :=
  let isPub := options.isPublic.getD false
  if isPub then
    .ok (.publicDecrypt handle)
  else
    match options.signer with
    | none => .error "Signer is required for user decryption"
    | some _ => .ok (.userDecrypt handle options.contractAddress)

/-- FhevmConfig (types.ts): the network configuration handed to the client. -/
structure FhevmConfig where
  chainId : Nat
  publicKey : String
  gatewayAddress : String
  aclAddress : String
  kmsVerifierAddress : String
  deriving DecidableEq, Repr

/-- The FhevmClient state (client.ts lines 11-18): the created fhevmjs
instance (an opaque handle, none before creation; the source field is named
instance), the configuration, and the initialized flag. -/
structure FhevmClient where
  instRef : Option Nat
  config : FhevmConfig
  initialized : Bool
  deriving DecidableEq, Repr

/-- The FhevmClient constructor: stores the configuration, no instance yet. -/
def FhevmClient.mk0 (config : FhevmConfig) : FhevmClient :=
  { instRef := none, config := config, initialized := false }

/-- init (client.ts lines 23-41): returns immediately when already
initialized; otherwise runs the fhevmjs library setup, creates the instance
from the network configuration (the externally created instance handle is the
first argument) and sets the initialized flag.  The returned Bool records
whether the library initialization and instance creation ran. -/
def FhevmClient.init (created : Nat) (c : FhevmClient) : FhevmClient × Bool :=
  if c.initialized then (c, false)
  else ({ c with instRef := some created, initialized := true }, true)

/-- isInitialized (client.ts lines 84-86). -/
def FhevmClient.isInitialized (c : FhevmClient) : Bool :=
  c.initialized

end Sdk

namespace Governance

/-!
Concrete scenario states used by the counterexamples and witnesses below.
-/

/-- A resolution sitting in the RevealRequested stage: voting closed, a
decryption request with identifier 5 outstanding since time 100. -/
def c4Resolution : Resolution :=
  { id := 0, title := "T", description := "D", startTime := 0, endTime := 50,
    active := false, yesVotes := 0, noVotes := 0, creator := 1,
    requiredQuorum := 2, decryptionRequested := true,
    decryptionRequestTime := 100, decryptionRequestId := 5, resolved := false,
    revealedYesVotes := 0, revealedNoVotes := 0 }

/-- A contract state holding c4Resolution with its PendingRequest entry. -/
def c4State : GovState :=
  { chairperson := 1, gateway := 9,
    members := [(1, ⟨true, 1, "Chair", "Chairperson"⟩)],
    totalVotingPower := 1, resolutions := [c4Resolution],
    pendingRequests := [(5, 0)], nextRequestId := 6, voted := [],
    events := [.decryptionRequestedEvt 0 5] }

/-- The state after the Gateway delivers a genuine 0 yes and 0 no reveal. -/
def c4RevealState : GovState :=
  match resolveResolution c4State 9 5 0 0 with
  | .ok s => s
  | .error _ => c4State

/-- The state after the creator fires the timeout fallback at time 86500. -/
def c4TimeoutState : GovState :=
  match handleDecryptionTimeout c4State 1 0 86500 with
  | .ok s => s
  | .error _ => c4State

/-- The state after the Gateway delivers a 3 yes and 1 no reveal. -/
def c1RevealState : GovState :=
  match resolveResolution c4State 9 5 3 1 with
  | .ok s => s
  | .error _ => c4State

/-- An open resolution with a week-long voting window, used by the
double-vote scenario. -/
def c6Resolution : Resolution :=
  { id := 0, title := "T", description := "D", startTime := 0, endTime := 1000,
    active := true, yesVotes := 0, noVotes := 0, creator := 1,
    requiredQuorum := 1, decryptionRequested := false,
    decryptionRequestTime := 0, decryptionRequestId := 0, resolved := false,
    revealedYesVotes := 0, revealedNoVotes := 0 }

/-- A contract state with one active member of weight 2 and c6Resolution. -/
def c6State : GovState :=
  { chairperson := 1, gateway := 9,
    members := [(7, ⟨true, 2, "Alice Johnson", "CFO"⟩)],
    totalVotingPower := 2, resolutions := [c6Resolution],
    pendingRequests := [], nextRequestId := 0, voted := [], events := [] }

/-- The state after member 7 casts a yes vote on resolution 0. -/
def c6FirstVoteState : GovState :=
  match castVote c6State 7 0 true 10 with
  | .ok s => s
  | .error _ => c6State

/-- The state after member 7 casts only a no vote on resolution 0. -/
def c6SecondOnlyState : GovState :=
  match castVote c6State 7 0 false 10 with
  | .ok s => s
  | .error _ => c6State

/-- The freshly deployed contract: chairperson 1, gateway 9, no members. -/
def initialState : GovState :=
  { chairperson := 1, gateway := 9, members := [], totalVotingPower := 0,
    resolutions := [], pendingRequests := [], nextRequestId := 0, voted := [],
    events := [] }

/-- The state after the chairperson adds member 2 with weight 3. -/
def c7AddedState : GovState :=
  match addBoardMember initialState 1 2 "Alice Johnson" "CFO" 3 with
  | .ok s => s
  | .error _ => initialState

/-! Helper lemmas about the registry and the pending-request index. -/

lemma pendingLookup_erase (l : List (Nat × Nat)) (reqId : Nat) :
    pendingLookup (pendingErase l reqId) reqId = none := by
  induction l with
  | nil => rfl
  | cons p rest ih =>
    obtain ⟨k, v⟩ := p
    by_cases h : k = reqId
    · simpa [pendingErase, h] using ih
    · simpa [pendingErase, pendingLookup, h] using ih

lemma activePower_updateFirst (a : Nat) (f : BoardMember → BoardMember)
    (l : List (Nat × BoardMember)) (m : BoardMember)
    (h : lookupMember l a = some m) :
    activePower (updateFirst a f l) + (if m.isActive then m.votingPower else 0)
      = activePower l + (if (f m).isActive then (f m).votingPower else 0) := by
  induction l with
  | nil => simp [lookupMember] at h
  | cons p rest ih =>
    obtain ⟨k, mm⟩ := p
    by_cases hk : k = a
    · simp [lookupMember, hk] at h
      subst h
      simp [updateFirst, hk, activePower]
      omega
    · simp [lookupMember, hk] at h
      have hrec := ih h
      simp [updateFirst, hk, activePower]
      omega

lemma activeWeightsPos_updateFirst (a : Nat) (f : BoardMember → BoardMember)
    (l : List (Nat × BoardMember))
    (hf : ∀ mm, (f mm).isActive = true → 0 < (f mm).votingPower)
    (hl : activeWeightsPos l) : activeWeightsPos (updateFirst a f l) := by
  induction l with
  | nil => intro p hp; simp [updateFirst] at hp
  | cons p rest ih =>
    obtain ⟨k, mm⟩ := p
    by_cases hk : k = a
    · intro q hq
      simp [updateFirst, hk] at hq
      rcases hq with hq | hq
      · subst hq; exact hf mm
      · exact hl q (by simp [hq])
    · intro q hq
      simp [updateFirst, hk] at hq
      rcases hq with hq | hq
      · subst hq; exact hl (k, mm) (by simp)
      · exact ih (fun r hr h1 => hl r (by simp [hr]) h1) q hq

lemma govInv_of_eq {s s' : GovState} (h : govInv s)
    (hm : s'.members = s.members)
    (ht : s'.totalVotingPower = s.totalVotingPower) : govInv s' := by
  unfold govInv at h ⊢
  rw [hm, ht]
  exact h

lemma ensureRegistered_inv (s : GovState) (a : Nat) (h : govInv s) :
    govInv (ensureRegistered s a) := by
  unfold ensureRegistered
  split
  · exact h
  · obtain ⟨h1, h2⟩ := h
    refine ⟨?_, ?_⟩
    · simp [activePower, h1]
      omega
    · intro p hp
      simp at hp
      rcases hp with hp | hp
      · subst hp; intro _; norm_num
      · exact h2 p hp

end Governance

namespace Sdk

/-- C10: for every instance, contract address, user address, value, and type
among the seven supported type literals, encryptMultiple applied to the
one-element list containing that value and type pair produces the same
encrypted input as encryptInput applied to the same value and type. -/
theorem c10_encryptMultiple_singleton {α : Type} (inst : FhevmInstanceModel α)
    (contractAddress userAddress : String) (value : JsValue) (ty : FheType) :
    encryptMultiple inst contractAddress userAddress [(value, ty)]
      = encryptInput inst contractAddress userAddress value ty := by
  cases ty <;> rfl

/-- C9: decryptValue throws the error "Signer is required for user
decryption" exactly when isPublic is false or absent and signer is absent;
when isPublic is true it delegates to instance.publicDecrypt and never
requires a signer. -/
theorem c9_decryptValue_signer_requirement (handle : String)
    (options : DecryptOptions) :
    (decryptValue handle options = .error "Signer is required for user decryption"
      ↔ (options.isPublic = none ∨ options.isPublic = some false)
          ∧ options.signer = none)
    ∧ (options.isPublic = some true →
        decryptValue handle options = .ok (.publicDecrypt handle)) := by
  obtain ⟨ca, isPub, sgn⟩ := options
  refine ⟨?_, ?_⟩
  · cases isPub with
    | none => cases sgn <;> simp [decryptValue]
    | some b => cases b <;> cases sgn <;> simp [decryptValue]
  · intro h
    simp at h
    subst h
    simp [decryptValue]

/-- C9 witness: at concrete inputs, a public decryption with no signer
succeeds, and a user decryption with no signer raises the signer error. -/
theorem c9_witness :
    decryptValue "0xh" ⟨"0xc", some true, none⟩ = .ok (.publicDecrypt "0xh")
    ∧ decryptValue "0xh" ⟨"0xc", none, none⟩
        = .error "Signer is required for user decryption" := by
  refine ⟨(c9_decryptValue_signer_requirement "0xh" ⟨"0xc", some true, none⟩).2 rfl, ?_⟩
  exact (c9_decryptValue_signer_requirement "0xh" ⟨"0xc", none, none⟩).1.mpr
    (by simp)

/-- C8: FhevmClient.init is idempotent: init always leaves the client
initialized; on an already initialized client a second init returns the
client unchanged without re-running the library initialization (the Bool
component records whether initialization ran); in particular init right
after a completed init changes nothing. -/
theorem c8_init_idempotent (c : FhevmClient) (created created2 : Nat) :
    ((FhevmClient.init created c).1.initialized = true)
    ∧ (c.initialized = true → FhevmClient.init created c = (c, false))
    ∧ (FhevmClient.init created2 (FhevmClient.init created c).1
        = ((FhevmClient.init created c).1, false)) := by
  by_cases h : c.initialized <;> simp [FhevmClient.init, h]

/-- C8 witness: on a concrete freshly constructed client, the second init
returns the once-initialized state unchanged, and init on an initialized
client is the identity. -/
theorem c8_witness :
    (FhevmClient.init 11
        (FhevmClient.init 10 (FhevmClient.mk0 ⟨1, "pk", "gw", "acl", "kms"⟩)).1
      = ((FhevmClient.init 10 (FhevmClient.mk0 ⟨1, "pk", "gw", "acl", "kms"⟩)).1,
          false))
    ∧ (FhevmClient.init 12 ⟨some 10, ⟨1, "pk", "gw", "acl", "kms"⟩, true⟩
        = (⟨some 10, ⟨1, "pk", "gw", "acl", "kms"⟩, true⟩, false)) :=
  ⟨(c8_init_idempotent (FhevmClient.mk0 ⟨1, "pk", "gw", "acl", "kms"⟩) 10 11).2.2,
   (c8_init_idempotent ⟨some 10, ⟨1, "pk", "gw", "acl", "kms"⟩, true⟩ 12 0).2.1 rfl⟩

end Sdk

namespace Governance

lemma handleDecryptionTimeout_ok {s : GovState} {caller rid now : Nat}
    {s' : GovState}
    (h : handleDecryptionTimeout s caller rid now = .ok s') :
    ∃ r, getResolution s rid = some r
      ∧ r.decryptionRequested = true
      ∧ r.resolved = false
      ∧ r.decryptionRequestTime + DECRYPTION_TIMEOUT ≤ now
      ∧ (caller = r.creator ∨ caller = s.chairperson)
      ∧ s' = { s with
          resolutions := s.resolutions.set rid
            { r with
              active := false
              resolved := true
              revealedYesVotes := 0
              revealedNoVotes := 0 }
          pendingRequests := pendingErase s.pendingRequests r.decryptionRequestId
          events := .decryptionTimeoutEvt rid :: s.events } := by
  cases hget : getResolution s rid with
  | none => simp [handleDecryptionTimeout, hget] at h
  | some r =>
    simp only [handleDecryptionTimeout, hget] at h
    split_ifs at h with h1 h2 h3 h4
    refine ⟨r, rfl, ?_, ?_, ?_, ?_, ?_⟩
    · simpa using h1
    · simpa using h2
    · omega
    · rcases not_and_or.mp h4 with hc | hc
      · exact Or.inl (not_not.mp hc)
      · exact Or.inr (not_not.mp hc)
    · injection h with h5
      exact h5.symm

end Governance

namespace Governance

lemma ensureRegistered_fields (s : GovState) (a : Nat) :
    (ensureRegistered s a).voted = s.voted
    ∧ (ensureRegistered s a).resolutions = s.resolutions
    ∧ (ensureRegistered s a).gateway = s.gateway
    ∧ (ensureRegistered s a).chairperson = s.chairperson
    ∧ (ensureRegistered s a).pendingRequests = s.pendingRequests := by
  unfold ensureRegistered
  split <;> simp

lemma resolveResolution_ok {s : GovState} {caller reqId yes no : Nat}
    {s' : GovState}
    (h : resolveResolution s caller reqId yes no = .ok s') :
    caller = s.gateway
    ∧ ∃ rid r, pendingLookup s.pendingRequests reqId = some rid
      ∧ getResolution s rid = some r
      ∧ r.resolved = false
      ∧ s' = { s with
          resolutions := s.resolutions.set rid
            { r with
              active := false
              resolved := true
              revealedYesVotes := yes
              revealedNoVotes := no }
          pendingRequests := pendingErase s.pendingRequests reqId
          events := .resolutionResolvedEvt rid yes no :: s.events } := by
  simp only [resolveResolution] at h
  split_ifs at h with hg
  cases hp : pendingLookup s.pendingRequests reqId with
  | none => simp only [hp] at h; simp at h
  | some rid =>
    simp only [hp] at h
    cases hr : getResolution s rid with
    | none => simp only [hr] at h; simp at h
    | some r =>
      simp only [hr] at h
      split_ifs at h with hres
      refine ⟨not_not.mp hg, rid, r, rfl, hr, by simpa using hres, ?_⟩
      injection h with h5
      exact h5.symm

lemma closeResolution_ok {s : GovState} {caller rid now : Nat} {s' : GovState}
    (h : closeResolution s caller rid now = .ok s') :
    ∃ r, getResolution s rid = some r
      ∧ r.decryptionRequested = false
      ∧ r.resolved = false
      ∧ (r.endTime ≤ now ∨ caller = r.creator)
      ∧ s' = { s with
          resolutions := s.resolutions.set rid
            { r with
              active := false
              decryptionRequested := true
              decryptionRequestTime := now
              decryptionRequestId := s.nextRequestId }
          pendingRequests := (s.nextRequestId, rid) :: s.pendingRequests
          nextRequestId := s.nextRequestId + 1
          events := .decryptionRequestedEvt rid s.nextRequestId :: s.events } := by
  cases hget : getResolution s rid with
  | none => simp [closeResolution, hget] at h
  | some r =>
    simp only [closeResolution, hget] at h
    split_ifs at h with h1 h2
    have h1' : r.decryptionRequested = false ∧ r.resolved = false := by
      simpa using h1
    have h2' : now < r.endTime → caller = r.creator := by
      simpa using h2
    refine ⟨r, rfl, h1'.1, h1'.2, ?_, ?_⟩
    · by_cases hlt : now < r.endTime
      · exact Or.inr (h2' hlt)
      · exact Or.inl (by omega)
    · injection h with h5
      exact h5.symm

end Governance

namespace Governance

lemma castVote_ok {s : GovState} {caller rid : Nat} {choice : Bool}
    {now : Nat} {s' : GovState}
    (h : castVote s caller rid choice now = .ok s') :
    ∃ r m, getResolution s rid = some r
      ∧ r.active = true
      ∧ now < r.endTime
      ∧ lookupMember (ensureRegistered s caller).members caller = some m
      ∧ m.isActive = true
      ∧ (rid, caller) ∉ (ensureRegistered s caller).voted
      ∧ s'.members = (ensureRegistered s caller).members
      ∧ s'.totalVotingPower = (ensureRegistered s caller).totalVotingPower
      ∧ s'.voted = (rid, caller) :: (ensureRegistered s caller).voted
      ∧ s'.resolutions = (ensureRegistered s caller).resolutions.set rid
          (if choice then { r with yesVotes := r.yesVotes + m.votingPower }
           else { r with noVotes := r.noVotes + m.votingPower }) := by
  cases hget : getResolution s rid with
  | none => simp [castVote, hget] at h
  | some r =>
    cases hm : lookupMember (ensureRegistered s caller).members caller with
    | none =>
      simp only [castVote, hget, hm] at h
      split_ifs at h
    | some m =>
      simp only [castVote, hget, hm] at h
      cases choice with
      | false =>
        rw [if_neg (show ¬(false = true) by simp)] at h
        split_ifs at h with h1 h2 h3 h4
        injection h with h5
        refine ⟨r, m, rfl, by simpa using h1, by omega, rfl,
          by simpa using h3, h4, ?_, ?_, ?_, ?_⟩
        · rw [← h5]
        · rw [← h5]
        · rw [← h5]
        · rw [← h5]; simp
      | true =>
        rw [if_pos (show (true = true) from rfl)] at h
        split_ifs at h with h1 h2 h3 h4
        injection h with h5
        refine ⟨r, m, rfl, by simpa using h1, by omega, rfl,
          by simpa using h3, h4, ?_, ?_, ?_, ?_⟩
        · rw [← h5]
        · rw [← h5]
        · rw [← h5]
        · rw [← h5]; simp

end Governance

namespace Governance

lemma createResolution_ok_fields {s : GovState} {caller : Nat}
    {title description : String} {quorum now : Nat} {s' : GovState}
    (h : createResolution s caller title description quorum now = .ok s') :
    s'.members = (ensureRegistered s caller).members
    ∧ s'.totalVotingPower = (ensureRegistered s caller).totalVotingPower := by
  cases hm : lookupMember (ensureRegistered s caller).members caller with
  | none =>
    simp only [createResolution, hm] at h
    split_ifs at h
  | some m =>
    simp only [createResolution, hm] at h
    split_ifs at h with h0 h1 h2 h3
    injection h with h5
    rw [← h5]
    exact ⟨rfl, rfl⟩

lemma addBoardMember_ok {s : GovState} {caller addr : Nat}
    {name position : String} {power : Nat} {s' : GovState}
    (h : addBoardMember s caller addr name position power = .ok s') :
    caller = s.chairperson ∧ addr ≠ 0 ∧ 0 < power ∧ power ≤ 1000
    ∧ ((∃ m, lookupMember s.members addr = some m ∧ m.isActive = false
          ∧ s'.members = updateFirst addr
              (fun _ => ⟨true, power, name, position⟩) s.members)
        ∨ (lookupMember s.members addr = none
          ∧ s'.members = (addr, ⟨true, power, name, position⟩) :: s.members))
    ∧ s'.totalVotingPower = s.totalVotingPower + power := by
  simp only [addBoardMember] at h
  split_ifs at h with h1 h2 h3 h4
  have h3' : 0 < power ∧ power ≤ 1000 := by
    simp at h3
    omega
  cases hm : lookupMember s.members addr with
  | none =>
    simp only [hm] at h
    injection h with h5
    rw [← h5]
    exact ⟨not_not.mp h1, h2, h3'.1, h3'.2, Or.inr ⟨rfl, rfl⟩, rfl⟩
  | some m =>
    simp only [hm] at h
    split_ifs at h with h6
    injection h with h5
    rw [← h5]
    exact ⟨not_not.mp h1, h2, h3'.1, h3'.2,
      Or.inl ⟨m, rfl, by simpa using h6, rfl⟩, rfl⟩

lemma removeBoardMember_ok {s : GovState} {caller addr : Nat} {s' : GovState}
    (h : removeBoardMember s caller addr = .ok s') :
    caller = s.chairperson
    ∧ ∃ m, lookupMember s.members addr = some m ∧ m.isActive = true
      ∧ s'.members = updateFirst addr
          (fun mm => { mm with isActive := false }) s.members
      ∧ s'.totalVotingPower = s.totalVotingPower - m.votingPower := by
  simp only [removeBoardMember] at h
  split_ifs at h with h1
  cases hm : lookupMember s.members addr with
  | none => simp only [hm] at h; simp at h
  | some m =>
    simp only [hm] at h
    split_ifs at h with h2
    injection h with h5
    rw [← h5]
    exact ⟨not_not.mp h1, m, rfl, by simpa using h2, rfl, rfl⟩

end Governance

namespace Governance

/-- C1: once a requestId has been consumed, by a delivered reveal or by the
timeout fallback, a later Gateway callback (resolveResolution) with the same
requestId is rejected with the NotFoundError for an unknown request; a
rejected call returns no new state in this all-or-nothing model, so
revealedYesVotes, revealedNoVotes and resolved are untouched and the
resolution is never finalized twice. -/
theorem c1_requestId_consumed_once (s s' : GovState)
    (reqId yes no yes2 no2 : Nat) :
    (resolveResolution s s.gateway reqId yes no = .ok s' →
      resolveResolution s' s'.gateway reqId yes2 no2
        = .error (.notFoundError "Unknown request"))
    ∧ (∀ caller rid now r,
        handleDecryptionTimeout s caller rid now = .ok s' →
        getResolution s rid = some r →
        resolveResolution s' s'.gateway r.decryptionRequestId yes2 no2
          = .error (.notFoundError "Unknown request")) := by
  constructor
  · intro h
    obtain ⟨hg, rid, r, hp, hr, hres, hs'⟩ := resolveResolution_ok h
    subst hs'
    simp [resolveResolution, pendingLookup_erase]
  · intro caller rid now r h hget
    obtain ⟨r0, hr0, h1, h2, h3, h4, hs'⟩ := handleDecryptionTimeout_ok h
    rw [hget] at hr0
    injection hr0 with hr1
    subst hr1
    subst hs'
    simp [resolveResolution, pendingLookup_erase]

/-- C1 witness: in the concrete RevealRequested scenario, after the Gateway
delivers request 5, a second callback for request 5 fails with the unknown
request NotFoundError. -/
theorem c1_witness :
    resolveResolution c1RevealState c1RevealState.gateway 5 7 7
      = .error (.notFoundError "Unknown request") := by
  have h : resolveResolution c4State c4State.gateway 5 3 1 = .ok c1RevealState := by
    rfl
  exact (c1_requestId_consumed_once c4State c1RevealState 5 3 1 7 7).1 h

/-- C2: closeResolution on a resolution already in the RevealRequested or
Resolved stage fails with the StateError for every caller (including the
creator); an error returns no new state in this all-or-nothing model, so the
resolution is unchanged. -/
theorem c2_close_only_once (s : GovState) (caller rid now : Nat)
    (r : Resolution) (hget : getResolution s rid = some r)
    (hstate : r.decryptionRequested = true ∨ r.resolved = true) :
    closeResolution s caller rid now
      = .error (.stateError "Decryption already requested") := by
  simp only [closeResolution, hget]
  rcases hstate with h | h <;> simp [h]

/-- C2 witness: on the concrete RevealRequested state, a second
closeResolution by the creator fails with the StateError. -/
theorem c2_witness :
    closeResolution c4State 1 0 999
      = .error (.stateError "Decryption already requested") :=
  c2_close_only_once c4State 1 0 999 c4Resolution rfl (Or.inl rfl)

/-- C3: handleDecryptionTimeout succeeds only when the resolution is in the
RevealRequested stage, the one-day timeout has elapsed since the decryption
request, and the caller is the creator or the chairperson; while the request
is outstanding, any call before the timeout, by any caller, fails with the
TimeoutNotReached state error and returns no new state. -/
theorem c3_timeout_guard (s : GovState) (caller rid now : Nat) :
    (∀ s', handleDecryptionTimeout s caller rid now = .ok s' →
      ∃ r, getResolution s rid = some r
        ∧ r.decryptionRequested = true ∧ r.resolved = false
        ∧ r.decryptionRequestTime + DECRYPTION_TIMEOUT ≤ now
        ∧ (caller = r.creator ∨ caller = s.chairperson))
    ∧ (∀ r, getResolution s rid = some r →
        r.decryptionRequested = true → r.resolved = false →
        now < r.decryptionRequestTime + DECRYPTION_TIMEOUT →
        handleDecryptionTimeout s caller rid now
          = .error (.stateError "Timeout period not reached")) := by
  constructor
  · intro s' h
    obtain ⟨r, hget, h1, h2, h3, h4, _⟩ := handleDecryptionTimeout_ok h
    exact ⟨r, hget, h1, h2, h3, h4⟩
  · intro r hget h1 h2 h3
    simp only [handleDecryptionTimeout, hget]
    simp [h1, h2, h3]

/-- C3 witness: on the concrete RevealRequested state, a call at time 200
(before 100 + one day), even by an unauthorized caller, fails with the
TimeoutNotReached state error. -/
theorem c3_witness :
    handleDecryptionTimeout c4State 4 0 200
      = .error (.stateError "Timeout period not reached") :=
  (c3_timeout_guard c4State 4 0 200).2 c4Resolution rfl rfl rfl (by decide)

end Governance

namespace Governance

lemma getResolution_lt {s : GovState} {rid : Nat} {r : Resolution}
    (hget : getResolution s rid = some r) : rid < s.resolutions.length := by
  unfold getResolution at hget
  exact (List.getElem?_eq_some.mp hget).1

/-- C4 counterexample: from the same concrete RevealRequested state, the
genuine Gateway delivery of a 0 yes and 0 no tally and the timeout fallback
produce literally identical Resolution records: the record holds no separate
failure flag, so a timed-out resolution is not distinguishable from a genuine
0-0 tally by the resolution state the claim speaks about. -/
theorem c4_counterexample :
    resolveResolution c4State 9 5 0 0 = .ok c4RevealState
    ∧ handleDecryptionTimeout c4State 1 0 86500 = .ok c4TimeoutState
    ∧ getResolution c4RevealState 0 = getResolution c4TimeoutState 0 := by
  exact ⟨rfl, rfl, rfl⟩

/-- C4 amended: the timeout fallback sets revealedYesVotes = 0,
revealedNoVotes = 0 and resolved = true, and emits a DecryptionTimeout event;
the Resolution record has no separate failure flag, so the failed reveal is
recorded by the emitted DecryptionTimeout event (the derived failedReveal
mark), not by a field of the resolution. -/
theorem c4_timeout_marks_failure (s : GovState) (caller rid now : Nat)
    (s' : GovState)
    (h : handleDecryptionTimeout s caller rid now = .ok s') :
    (∃ r', getResolution s' rid = some r'
      ∧ r'.revealedYesVotes = 0 ∧ r'.revealedNoVotes = 0 ∧ r'.resolved = true)
    ∧ failedReveal s' rid = true := by
  obtain ⟨r, hget, h1, h2, h3, h4, hs'⟩ := handleDecryptionTimeout_ok h
  have hlt := getResolution_lt hget
  subst hs'
  constructor
  · refine ⟨{ r with
        active := false
        resolved := true
        revealedYesVotes := 0
        revealedNoVotes := 0 }, ?_, rfl, rfl, rfl⟩
    unfold getResolution
    exact List.getElem?_set_eq_of_lt _ hlt
  · simp [failedReveal]

/-- C4 amended witness: on the concrete scenario the timeout fallback yields
zeroed revealed tallies, resolved set, and the DecryptionTimeout failure
mark. -/
theorem c4_amended_witness :
    (∃ r', getResolution c4TimeoutState 0 = some r'
      ∧ r'.revealedYesVotes = 0 ∧ r'.revealedNoVotes = 0 ∧ r'.resolved = true)
    ∧ failedReveal c4TimeoutState 0 = true :=
  c4_timeout_marks_failure c4State 1 0 86500 c4TimeoutState rfl

/-- C5: a resolution is passed exactly when it is resolved, not a failed
reveal, the revealed yes votes strictly exceed the revealed no votes, and the
revealed participation meets the required quorum; an exact tie or an
under-quorum total is never passed, and a resolution finalized by the timeout
fallback is never passed. -/
theorem c5_passed_policy (r : Resolution) (failed : Bool) :
    (passed r failed = true ↔
      r.resolved = true ∧ failed = false
        ∧ r.revealedNoVotes < r.revealedYesVotes
        ∧ r.requiredQuorum ≤ r.revealedYesVotes + r.revealedNoVotes)
    ∧ (r.revealedYesVotes = r.revealedNoVotes → passed r failed = false)
    ∧ (r.revealedYesVotes + r.revealedNoVotes < r.requiredQuorum →
        passed r failed = false)
    ∧ (∀ s caller rid now s',
        handleDecryptionTimeout s caller rid now = .ok s' →
        ∀ r', getResolution s' rid = some r' →
        passed r' (failedReveal s' rid) = false) := by
  refine ⟨?_, ?_, ?_, ?_⟩
  · simp [passed, and_assoc]
  · intro h
    simp [passed, h]
  · intro h
    have hq : ¬ r.requiredQuorum ≤ r.revealedYesVotes + r.revealedNoVotes := by
      omega
    simp [passed, hq]
  · intro s caller rid now s' h r' hr'
    obtain ⟨r0, hget, h1, h2, h3, h4, hs'⟩ := handleDecryptionTimeout_ok h
    subst hs'
    have hf : failedReveal
        { s with
          resolutions := s.resolutions.set rid
            { r0 with
              active := false
              resolved := true
              revealedYesVotes := 0
              revealedNoVotes := 0 }
          pendingRequests := pendingErase s.pendingRequests r0.decryptionRequestId
          events := .decryptionTimeoutEvt rid :: s.events } rid = true := by
      simp [failedReveal]
    rw [hf]
    simp [passed]

/-- C5 witness: a concrete 0-0 tie is not passed, and a concrete resolved
8 yes versus 2 no tally with quorum 2 is passed. -/
theorem c5_witness :
    passed c4Resolution false = false
    ∧ passed { c4Resolution with
        resolved := true
        revealedYesVotes := 8
        revealedNoVotes := 2 } false = true := by
  constructor
  · exact (c5_passed_policy c4Resolution false).2.1 rfl
  · exact (c5_passed_policy { c4Resolution with
        resolved := true
        revealedYesVotes := 8
        revealedNoVotes := 2 } false).1.mpr (by decide)

end Governance

namespace Governance

/-- C6 counterexample: the claim predicts that voting yes and then voting no
before closing yields the tally of a single no vote; on the embedded code the
second vote is rejected with the already-voted StateError (the single-vote
policy of the README and the test suite), the tally keeps only the first yes
vote, and the predicted and actual resolution records differ. -/
theorem c6_counterexample :
    castVote c6State 7 0 true 10 = .ok c6FirstVoteState
    ∧ castVote c6FirstVoteState 7 0 false 20
        = .error (.stateError "Member has already voted on this resolution")
    ∧ castVote c6State 7 0 false 10 = .ok c6SecondOnlyState
    ∧ (getResolution c6FirstVoteState 0).map Resolution.yesVotes = some 2
    ∧ (getResolution c6FirstVoteState 0).map Resolution.noVotes = some 0
    ∧ (getResolution c6SecondOnlyState 0).map Resolution.noVotes = some 2
    ∧ getResolution c6FirstVoteState 0 ≠ getResolution c6SecondOnlyState 0 := by
  refine ⟨rfl, by rfl, rfl, rfl, rfl, rfl, by decide⟩

/-- C6 amended: repeated voting on a resolution is not supported: when an
active member with a recorded vote for an open resolution casts again before
the voting window closes, castVote fails with the already-voted StateError,
so the confidential tally keeps only the first recorded choice. -/
theorem c6_single_vote_policy (s : GovState) (caller rid : Nat)
    (choice : Bool) (now : Nat) {r : Resolution} {m : BoardMember}
    (hget : getResolution s rid = some r) (hact : r.active = true)
    (htime : now < r.endTime)
    (hm : lookupMember s.members caller = some m)
    (hmact : m.isActive = true)
    (hvoted : (rid, caller) ∈ s.voted) :
    castVote s caller rid choice now
      = .error (.stateError "Member has already voted on this resolution") := by
  have he : ensureRegistered s caller = s := by
    unfold ensureRegistered
    rw [hm]
  have hnotle : ¬ r.endTime ≤ now := by omega
  simp only [castVote, hget, he, hm]
  simp [hact, hnotle, hmact, hvoted]

/-- C6 amended witness: in the concrete scenario, member 7 has voted yes on
resolution 0; casting again fails with the already-voted StateError. -/
theorem c6_amended_witness :
    castVote c6FirstVoteState 7 0 true 20
      = .error (.stateError "Member has already voted on this resolution") :=
  c6_single_vote_policy c6FirstVoteState 7 0 true 20 rfl rfl (by decide)
    rfl rfl (by decide)

end Governance

namespace Governance

lemma addBoardMember_inv {s : GovState} {caller addr : Nat}
    {name position : String} {power : Nat} {s' : GovState}
    (hinv : govInv s)
    (h : addBoardMember s caller addr name position power = .ok s') :
    govInv s' := by
  obtain ⟨hc, haddr, hp1, hp2, hbranch, htot⟩ := addBoardMember_ok h
  obtain ⟨h1, h2⟩ := hinv
  rcases hbranch with ⟨m, hm, hmin, hmem⟩ | ⟨hm, hmem⟩
  · have hup := activePower_updateFirst addr
      (fun _ => ⟨true, power, name, position⟩) s.members m hm
    rw [hmin] at hup
    simp at hup
    constructor
    · rw [htot, hmem, h1]
      omega
    · rw [hmem]
      apply activeWeightsPos_updateFirst
      · intro mm _
        simpa using hp1
      · exact h2
  · constructor
    · rw [htot, hmem]
      simp [activePower, h1]
      omega
    · rw [hmem]
      intro p hp
      simp at hp
      rcases hp with hp | hp
      · subst hp
        intro _
        simpa using hp1
      · exact h2 p hp

lemma removeBoardMember_inv {s : GovState} {caller addr : Nat} {s' : GovState}
    (hinv : govInv s) (h : removeBoardMember s caller addr = .ok s') :
    govInv s' := by
  obtain ⟨hc, m, hm, hmact, hmem, htot⟩ := removeBoardMember_ok h
  obtain ⟨h1, h2⟩ := hinv
  have hup := activePower_updateFirst addr
    (fun mm => { mm with isActive := false }) s.members m hm
  rw [hmact] at hup
  simp at hup
  constructor
  · rw [htot, hmem, h1]
    omega
  · rw [hmem]
    apply activeWeightsPos_updateFirst
    · intro mm hmm
      simp at hmm
    · exact h2

lemma createResolution_inv {s : GovState} {caller : Nat}
    {title description : String} {quorum now : Nat} {s' : GovState}
    (hinv : govInv s)
    (h : createResolution s caller title description quorum now = .ok s') :
    govInv s' := by
  obtain ⟨hm, ht⟩ := createResolution_ok_fields h
  exact govInv_of_eq (ensureRegistered_inv s caller hinv) hm ht

lemma castVote_inv {s : GovState} {caller rid : Nat} {choice : Bool}
    {now : Nat} {s' : GovState}
    (hinv : govInv s) (h : castVote s caller rid choice now = .ok s') :
    govInv s' := by
  obtain ⟨r, m, _, _, _, _, _, _, hm, ht, _, _⟩ := castVote_ok h
  exact govInv_of_eq (ensureRegistered_inv s caller hinv) hm ht

/-- C7: at every state satisfying it, the voting-power invariant says
totalVotingPower equals the sum of the active members' weights and every
active member has positive weight; getTotalVotingPower is the pure
side-effect-free projection of the maintained running sum; and every
operation (addBoardMember, removeBoardMember, createResolution, castVote,
closeResolution, resolveResolution, handleDecryptionTimeout) preserves the
invariant. -/
theorem c7_voting_power_invariant (s : GovState) (hinv : govInv s) :
    getTotalVotingPower s = activePower s.members
    ∧ (∀ p ∈ s.members, p.2.isActive = true → 0 < p.2.votingPower)
    ∧ (∀ caller addr name position power s',
        addBoardMember s caller addr name position power = .ok s' → govInv s')
    ∧ (∀ caller addr s', removeBoardMember s caller addr = .ok s' → govInv s')
    ∧ (∀ caller title description quorum now s',
        createResolution s caller title description quorum now = .ok s' →
          govInv s')
    ∧ (∀ caller rid choice now s',
        castVote s caller rid choice now = .ok s' → govInv s')
    ∧ (∀ caller rid now s',
        closeResolution s caller rid now = .ok s' → govInv s')
    ∧ (∀ caller reqId yes no s',
        resolveResolution s caller reqId yes no = .ok s' → govInv s')
    ∧ (∀ caller rid now s',
        handleDecryptionTimeout s caller rid now = .ok s' → govInv s') := by
  refine ⟨hinv.1, hinv.2, ?_, ?_, ?_, ?_, ?_, ?_, ?_⟩
  · intro caller addr name position power s' h
    exact addBoardMember_inv hinv h
  · intro caller addr s' h
    exact removeBoardMember_inv hinv h
  · intro caller title description quorum now s' h
    exact createResolution_inv hinv h
  · intro caller rid choice now s' h
    exact castVote_inv hinv h
  · intro caller rid now s' h
    obtain ⟨r, _, _, _, _, hs'⟩ := closeResolution_ok h
    subst hs'
    exact govInv_of_eq hinv rfl rfl
  · intro caller reqId yes no s' h
    obtain ⟨_, rid, r, _, _, _, hs'⟩ := resolveResolution_ok h
    subst hs'
    exact govInv_of_eq hinv rfl rfl
  · intro caller rid now s' h
    obtain ⟨r, _, _, _, _, _, hs'⟩ := handleDecryptionTimeout_ok h
    subst hs'
    exact govInv_of_eq hinv rfl rfl

/-- C7 witness: the fresh contract satisfies the invariant, its
getTotalVotingPower read equals the active-weight sum, and after the concrete
addBoardMember the invariant still holds. -/
theorem c7_witness :
    getTotalVotingPower initialState = activePower initialState.members
    ∧ govInv c7AddedState := by
  have hinv : govInv initialState := by
    constructor
    · rfl
    · intro p hp
      simp [initialState] at hp
  refine ⟨(c7_voting_power_invariant initialState hinv).1, ?_⟩
  exact (c7_voting_power_invariant initialState hinv).2.2.1
    1 2 "Alice Johnson" "CFO" 3 c7AddedState rfl

end Governance
